import Mathlib

/-!
Shallow embedding of the `ovpn-dev/digital-wallet` repository core:
the wallet-service ledger store (`wallet-service/src/repository.rs`,
`models.rs`, `handlers.rs`, `kafka.rs`) and the history-service
projector (`history-service/src/repository.rs`, `models.rs`,
`consumer.rs`).

The durable store is modelled as the list of rows of the relevant
relation; SQL statements become list operations on those rows; a
database transaction that is rolled back is modelled by returning the
caller's store unchanged alongside the error; amounts (`rust_decimal::Decimal`,
an exact decimal) are modelled as rationals; `Uuid::new_v4()` is
modelled by a per-store fresh-id counter.  Timestamps play no role in
any property below and are omitted.
-/

namespace DigitalWallet

/-- `TransactionType` from `wallet-service/src/models.rs` (lines 43-52). -/
inductive TransactionType
| Fund
| TransferOut
| TransferIn
deriving DecidableEq

/-- `TransactionStatus` from `wallet-service/src/models.rs` (lines 68-74). -/
inductive TransactionStatus
| Completed
| Failed
deriving DecidableEq

/-- `Wallet` from `wallet-service/src/models.rs` (lines 13-20), timestamps omitted. -/
structure Wallet where
  id : String
  user_id : String
  balance : Rat
  version : Int
deriving DecidableEq

/-- `WalletTransaction` from `wallet-service/src/models.rs` (lines 28-37), timestamp omitted. -/
structure WalletTransaction where
  id : String
  wallet_id : String
  amount : Rat
  transaction_type : TransactionType
  status : TransactionStatus
  reference_id : Option String
deriving DecidableEq

/-- `WalletError` from `wallet-service/src/errors.rs`; only the variants the
repository itself produces are modelled (the others wrap external faults). -/
inductive WalletError
| WalletNotFound (id : String)
| InsufficientBalance (required available : Rat)
| InvalidAmount (msg : String)
| OptimisticLockError
deriving DecidableEq

/-- The source of fresh ids, modelling `Uuid::new_v4().to_string()`: the `n`-th
id drawn from a store's counter.  Injectivity is all the model needs. -/
def freshId (n : Nat) : String :=
  String.mk (List.replicate (n + 1) 'u')

/-- The wallet-service database: the `wallets` relation, the
`wallet_transactions` relation, and the fresh-id counter. -/
structure WalletStore where
  wallets : List Wallet
  transactions : List WalletTransaction
  nextId : Nat
deriving DecidableEq

/-- The empty database. -/
def emptyWalletStore : WalletStore :=
  { wallets := [], transactions := [], nextId := 0 }

/-- `SELECT ... FROM wallets WHERE id = $1` (`find_by_id` / `find_by_id_in_tx` /
`lock_wallet_in_tx`, `repository.rs` lines 51-65, 290-330): the first row whose
`id` equals the argument.  `lock_wallet_in_tx` adds `FOR UPDATE`, which changes
nothing about the row returned. -/
def findWallet : List Wallet → String → Option Wallet
| [], _ => none
| r :: rs, wallet_id => if r.id = wallet_id then some r else findWallet rs wallet_id

/-- `WalletRepository::create_wallet` (`repository.rs` lines 30-48): insert a
row with a fresh id, balance 0 and version 0, returning it. -/
def create_wallet (s : WalletStore) (user_id : String) : WalletStore × Wallet :=
  let w : Wallet := { id := freshId s.nextId, user_id := user_id, balance := 0, version := 0 }
  ({ s with wallets := s.wallets ++ [w], nextId := s.nextId + 1 }, w)

/-- The `UPDATE wallets SET balance = $1, version = $2 WHERE id = $3 AND
version = $4` of `fund_wallet` (`repository.rs` lines 120-133): every row
matching both the id and the previously read version is rewritten. -/
def updateWalletRow (rows : List Wallet) (bal : Rat) (ver : Int)
    (wallet_id : String) (oldVer : Int) : List Wallet :=
  rows.map (fun r =>
    if r.id = wallet_id ∧ r.version = oldVer then
      { r with balance := bal, version := ver }
    else r)

/-- `rows_affected()` of that `UPDATE`: how many rows match the `WHERE` clause. -/
def rowsAffected (rows : List Wallet) (wallet_id : String) (oldVer : Int) : Nat :=
  rows.countP (fun r => decide (r.id = wallet_id ∧ r.version = oldVer))

/-- `WalletRepository::fund_wallet` (`repository.rs` lines 99-159): validate the
amount, read the wallet, write the new balance conditionally on the read
version (`OptimisticLockError` when no row matched), insert one `Fund` ledger
row, commit, then re-read the wallet.  An error returns the caller's store
unchanged (the transaction is dropped without commit). -/
def fund_wallet (s : WalletStore) (wallet_id : String) (amount : Rat) :
    WalletStore × Except WalletError (Wallet × WalletTransaction) :=
  if amount ≤ 0 then
    (s, .error (.InvalidAmount "Amount must be positive"))
  else
    match findWallet s.wallets wallet_id with
    | none => (s, .error (.WalletNotFound wallet_id))
    | some wallet =>
      let new_balance := wallet.balance + amount
      let new_version := wallet.version + 1
      if rowsAffected s.wallets wallet_id wallet.version = 0 then
        (s, .error .OptimisticLockError)
      else
        let txn : WalletTransaction :=
          { id := freshId s.nextId, wallet_id := wallet_id, amount := amount,
            transaction_type := .Fund, status := .Completed, reference_id := none }
        let s' : WalletStore :=
          { wallets := updateWalletRow s.wallets new_balance new_version wallet_id wallet.version,
            transactions := s.transactions ++ [txn],
            nextId := s.nextId + 1 }
        match findWallet s'.wallets wallet_id with
        | some updated => (s', .ok (updated, txn))
        | none => (s', .error (.WalletNotFound wallet_id))

/-- The lock-order selection of `transfer` (`repository.rs` lines 199-203):
`if from_wallet_id < to_wallet_id { (from, to) } else { (to, from) }`.
The two wallets are then locked first-component first. -/
def lockOrderIds (from_wallet_id to_wallet_id : String) : String × String :=
  if from_wallet_id < to_wallet_id then (from_wallet_id, to_wallet_id)
  else (to_wallet_id, from_wallet_id)

/-- The `UPDATE wallets SET balance = $1, version = version + 1 WHERE id = $2`
of `transfer` (`repository.rs` lines 230-252). -/
def transferUpdateRow (rows : List Wallet) (bal : Rat) (wallet_id : String) : List Wallet :=
  rows.map (fun r =>
    if r.id = wallet_id then { r with balance := bal, version := r.version + 1 } else r)

/-- The post-lock stage of `WalletRepository::transfer` (`repository.rs` lines
217-284), with sender and receiver already identified: check the sender's
locked balance, apply both balance deltas with version increments, insert the
`TransferOut`/`TransferIn` pair sharing one fresh reference id, commit.  An
error returns the caller's store unchanged (rollback). -/
def transferLocked (s : WalletStore) (from_wallet to_wallet : Wallet) (amount : Rat) :
    WalletStore × Except WalletError (WalletTransaction × WalletTransaction) :=
  if from_wallet.balance < amount then
    (s, .error (.InsufficientBalance amount from_wallet.balance))
  else
    let rows1 := transferUpdateRow s.wallets (from_wallet.balance - amount) from_wallet.id
    let rows2 := transferUpdateRow rows1 (to_wallet.balance + amount) to_wallet.id
    let reference_id := freshId s.nextId
    let out_txn : WalletTransaction :=
      { id := freshId (s.nextId + 1), wallet_id := from_wallet.id, amount := amount,
        transaction_type := .TransferOut, status := .Completed,
        reference_id := some reference_id }
    let in_txn : WalletTransaction :=
      { id := freshId (s.nextId + 2), wallet_id := to_wallet.id, amount := amount,
        transaction_type := .TransferIn, status := .Completed,
        reference_id := some reference_id }
    ({ wallets := rows2,
       transactions := s.transactions ++ [out_txn, in_txn],
       nextId := s.nextId + 3 },
     .ok (out_txn, in_txn))

/-- `WalletRepository::transfer` (`repository.rs` lines 175-285): validate,
lock both wallets in id order, re-identify sender and receiver (lines
211-215), then run the post-lock stage `transferLocked`. -/
def transfer (s : WalletStore) (from_wallet_id to_wallet_id : String) (amount : Rat) :
    WalletStore × Except WalletError (WalletTransaction × WalletTransaction) :=
  if amount ≤ 0 then
    (s, .error (.InvalidAmount "Transfer amount must be positive"))
  else if from_wallet_id = to_wallet_id then
    (s, .error (.InvalidAmount "Cannot transfer to the same wallet"))
  else
    let ids := lockOrderIds from_wallet_id to_wallet_id
    match findWallet s.wallets ids.1 with
    | none => (s, .error (.WalletNotFound ids.1))
    | some first_wallet =>
      match findWallet s.wallets ids.2 with
      | none => (s, .error (.WalletNotFound ids.2))
      | some second_wallet =>
        let pair :=
          if first_wallet.id = from_wallet_id then (first_wallet, second_wallet)
          else (second_wallet, first_wallet)
        transferLocked s pair.1 pair.2 amount

/-! ## History service -/

/-- `WalletEvent` from `history-service/src/models.rs` (lines 26-54); identical
to the publisher's enum in `wallet-service/src/kafka.rs` (lines 19-47).
Timestamps omitted. -/
inductive WalletEvent
| WalletCreated (wallet_id user_id : String)
| WalletFunded (wallet_id user_id : String) (amount new_balance : Rat) (transaction_id : String)
| TransferCompleted (from_wallet_id from_user_id to_wallet_id to_user_id : String)
    (amount : Rat) (reference_id : String)
deriving DecidableEq

namespace WalletEvent

/-- `WalletEvent::event_type` (`history-service/src/models.rs` lines 58-64). -/
def event_type : WalletEvent → String
| WalletCreated _ _ => "WALLET_CREATED"
| WalletFunded _ _ _ _ _ => "WALLET_FUNDED"
| TransferCompleted _ _ _ _ _ _ => "TRANSFER_COMPLETED"

/-- `WalletEvent::wallet_id` (`history-service/src/models.rs` lines 67-73). -/
def wallet_id : WalletEvent → String
| WalletCreated w _ => w
| WalletFunded w _ _ _ _ => w
| TransferCompleted w _ _ _ _ _ => w

/-- `WalletEvent::user_id` (`history-service/src/models.rs` lines 76-82). -/
def user_id : WalletEvent → String
| WalletCreated _ u => u
| WalletFunded _ u _ _ _ => u
| TransferCompleted _ u _ _ _ _ => u

/-- `WalletEvent::transaction_id` (`history-service/src/models.rs` lines 85-91):
the idempotency key, absent for creation events. -/
def transaction_id : WalletEvent → Option String
| WalletCreated _ _ => none
| WalletFunded _ _ _ _ t => some t
| TransferCompleted _ _ _ _ _ r => some r

/-- `WalletEvent::amount` (`history-service/src/models.rs` lines 94-100). -/
def amount : WalletEvent → Rat
| WalletCreated _ _ => 0
| WalletFunded _ _ a _ _ => a
| TransferCompleted _ _ _ _ a _ => a

end WalletEvent

/-- `TransactionEvent` from `history-service/src/models.rs` (lines 9-18): a row
of the `transaction_events` relation (the projected HistoryRecord).  The
timestamp and the JSONB debug copy of the event are omitted. -/
structure TransactionEvent where
  id : String
  wallet_id : String
  user_id : String
  amount : Rat
  event_type : String
  transaction_id : Option String
deriving DecidableEq

/-- `HistoryError` from `history-service/src/errors.rs`; only the variants the
modelled code paths produce. -/
inductive HistoryError
| DatabaseError (msg : String)
| InternalError (msg : String)
deriving DecidableEq

/-- The history-service database: the `transaction_events` relation and the
fresh-id counter. -/
structure HistoryStore where
  rows : List TransactionEvent
  nextId : Nat
deriving DecidableEq

/-- The empty history database. -/
def emptyHistoryStore : HistoryStore :=
  { rows := [], nextId := 0 }

/-- The `SELECT EXISTS(SELECT 1 FROM transaction_events WHERE transaction_id = $1)`
probe of `store_event` / `store_transfer_events`
(`history-service/src/repository.rs` lines 39-49, 110-120). -/
def txnIdExists (rows : List TransactionEvent) (t : String) : Bool :=
  rows.any (fun r => decide (r.transaction_id = some t))

/-- `EventRepository::store_event` (`history-service/src/repository.rs` lines
25-88): when the event carries an idempotency key that already exists, skip and
return `None`; otherwise insert one row with a fresh id and return it. -/
def store_event (s : HistoryStore) (e : WalletEvent) : HistoryStore × Option TransactionEvent :=
  let dup :=
    match e.transaction_id with
    | some t => txnIdExists s.rows t
    | none => false
  if dup then (s, none)
  else
    let row : TransactionEvent :=
      { id := freshId s.nextId, wallet_id := e.wallet_id, user_id := e.user_id,
        amount := e.amount, event_type := e.event_type, transaction_id := e.transaction_id }
    ({ rows := s.rows ++ [row], nextId := s.nextId + 1 }, some row)

/-- `EventRepository::store_transfer_events` (`history-service/src/repository.rs`
lines 95-189): for a `TransferCompleted` event, skip when the reference id is
already present, else insert the `TRANSFER_OUT` row then the `TRANSFER_IN` row,
both keyed by the reference id; any other event kind is an `InternalError`. -/
def store_transfer_events (s : HistoryStore) (e : WalletEvent) :
    HistoryStore × Except HistoryError (List TransactionEvent) :=
  match e with
  | .TransferCompleted from_wallet_id from_user_id to_wallet_id to_user_id amount reference_id =>
    if txnIdExists s.rows reference_id then (s, .ok [])
    else
      let out_event : TransactionEvent :=
        { id := freshId s.nextId, wallet_id := from_wallet_id, user_id := from_user_id,
          amount := amount, event_type := "TRANSFER_OUT", transaction_id := some reference_id }
      let in_event : TransactionEvent :=
        { id := freshId (s.nextId + 1), wallet_id := to_wallet_id, user_id := to_user_id,
          amount := amount, event_type := "TRANSFER_IN", transaction_id := some reference_id }
      ({ rows := s.rows ++ [out_event, in_event], nextId := s.nextId + 2 },
       .ok [out_event, in_event])
  | _ => (s, .error (.InternalError "Expected TransferCompleted event"))

/-- `EventConsumer::process_message` (`history-service/src/consumer.rs` lines
98-140), after successful deserialization: dispatch `TransferCompleted` to
`store_transfer_events` and everything else to `store_event`. -/
def process_message (s : HistoryStore) (e : WalletEvent) : HistoryStore :=
  match e with
  | .TransferCompleted _ _ _ _ _ _ => (store_transfer_events s e).1
  | _ => (store_event s e).1

/-- The offset behaviour of `EventConsumer::start` (`history-service/src/consumer.rs`
lines 27-52 and 66-95): the consumer is configured with `enable.auto.commit=true`
(line 37), so the committed stream position follows the consume position, which
`recv()` advances on every delivered message.  When `process_message` fails the
`Err` branch (lines 77-84) only logs and continues the loop, so the position
advances past the failed message exactly as it does past a processed one.
`faults pos` injects a transient storage failure into the projection of the
message at position `pos`: the store is then left unchanged (the failed insert
has no effect).  Returns the final consume position and store. -/
def consumeLoop (faults : Nat → Bool) : List WalletEvent → Nat → HistoryStore → Nat × HistoryStore
| [], pos, s => (pos, s)
| e :: rest, pos, s =>
    let s' := if faults pos then s else process_message s e
    consumeLoop faults rest (pos + 1) s'

/-! ## Wallet-service HTTP handler / publisher layer -/

/-- `KafkaProducer::publish_wallet_funded` (`wallet-service/src/kafka.rs` lines
180-196): the event it constructs from the wallet row it is handed, the request
amount and the ledger-entry id. -/
def publish_wallet_funded (w : Wallet) (amount : Rat) (transaction_id : String) : WalletEvent :=
  .WalletFunded w.id w.user_id amount w.balance transaction_id

/-- `handlers::fund_wallet` (`wallet-service/src/handlers.rs` lines 98-128):
run `WalletRepository::fund_wallet`; on success publish one `WalletFunded`
event built by `publish_wallet_funded` from the re-read wallet, the request
amount and the created ledger entry's id; on failure the `?` operator returns
before any publish.  The third component lists the events published. -/
def fund_wallet_handler (s : WalletStore) (wallet_id : String) (amount : Rat) :
    WalletStore × Except WalletError Wallet × List WalletEvent :=
  match fund_wallet s wallet_id amount with
  | (s', .ok (w, txn)) => (s', .ok w, [publish_wallet_funded w amount txn.id])
  | (s', .error e) => (s', .error e, [])

/-! ## Operation sequences over the wallet store -/

/-- One invocation of a ledger-store mutation, for reachability statements. -/
inductive Op
| create (user_id : String)
| fund (wallet_id : String) (amount : Rat)
| transfer (from_wallet_id to_wallet_id : String) (amount : Rat)

/-- The store left behind by one operation, successful or failed (a failed
operation rolls back, leaving the store unchanged). -/
def applyOp (s : WalletStore) : Op → WalletStore
| .create user_id => (create_wallet s user_id).1
| .fund wallet_id amount => (fund_wallet s wallet_id amount).1
| .transfer from_wallet_id to_wallet_id amount => (transfer s from_wallet_id to_wallet_id amount).1

/-- The store reached from the initial empty store by a sequence of operations. -/
def runOps (ops : List Op) : WalletStore :=
  ops.foldl applyOp emptyWalletStore

/-- Every wallet row carries a non-negative balance. -/
def NonNegBalances (s : WalletStore) : Prop :=
  ∀ w ∈ s.wallets, 0 ≤ w.balance

/-- `r` already occurs as the reference id of some ledger row of `s`. -/
def RefIdUsed (s : WalletStore) (r : String) : Prop :=
  ∃ t ∈ s.transactions, t.reference_id = some r

/-- Well-formedness of a store relative to its fresh-id counter: every
reference id recorded so far was drawn from the counter at an earlier value.
Holds of every store actually built by the repository's operations (each of
which draws from the counter and advances it), in particular of the empty
store. -/
def RefIdsBounded (s : WalletStore) : Prop :=
  ∀ t ∈ s.transactions, ∀ r, t.reference_id = some r → ∃ k, k < s.nextId ∧ r = freshId k

/-- Number of history rows carrying the given idempotency key. -/
def countTxnId (s : HistoryStore) (t : String) : Nat :=
  s.rows.countP (fun r => decide (r.transaction_id = some t))

/-- Number of history rows of the given event type carrying the given
idempotency key. -/
def countTypeTxnId (s : HistoryStore) (ty t : String) : Nat :=
  s.rows.countP (fun r => decide (r.event_type = ty ∧ r.transaction_id = some t))

/-! ## Spec-modelled store constraint -/

/-- Modelled from the spec: the uniqueness constraint of the projector's store.
The schema (migration files) is not part of `src/`; spec §4.3 says creation
events are inserted "relying on a uniqueness constraint on a natural
identifying attribute to make accidental re-insertion harmless".  For a
`WALLET_CREATED` row the natural identifying attribute is the created wallet's
identity, so the constraint rejects a second `WALLET_CREATED` row for the same
wallet. -/
def creationConstraintViolated (rows : List TransactionEvent) (row : TransactionEvent) : Bool :=
  decide (row.event_type = "WALLET_CREATED") &&
    rows.any (fun r => decide (r.event_type = "WALLET_CREATED" ∧ r.wallet_id = row.wallet_id))

/-- `EventRepository::store_event` as executed against the spec-modelled
store of `creationConstraintViolated`: identical to `store_event`
(`history-service/src/repository.rs` lines 25-88), except that the `INSERT` is
checked against the modelled uniqueness constraint, a violation surfacing as
the storage error sqlx would return, with the store unchanged. -/
def store_event_db (s : HistoryStore) (e : WalletEvent) :
    HistoryStore × Except HistoryError (Option TransactionEvent) :=
  let dup :=
    match e.transaction_id with
    | some t => txnIdExists s.rows t
    | none => false
  if dup then (s, .ok none)
  else
    let row : TransactionEvent :=
      { id := freshId s.nextId, wallet_id := e.wallet_id, user_id := e.user_id,
        amount := e.amount, event_type := e.event_type, transaction_id := e.transaction_id }
    if creationConstraintViolated s.rows row then
      (s, .error (.DatabaseError "duplicate key value violates unique constraint"))
    else
      ({ rows := s.rows ++ [row], nextId := s.nextId + 1 }, .ok (some row))

/-- A concrete two-wallet store used to instantiate the theorems below. -/
def sampleStore : WalletStore :=
  { wallets := [ { id := "wa", user_id := "alice", balance := 5, version := 0 },
                 { id := "wb", user_id := "bob", balance := 3, version := 2 } ],
    transactions := [],
    nextId := 7 }

/-! ## Helper lemmas -/

theorem freshId_inj {m n : Nat} (h : freshId m = freshId n) : m = n := by
  have h2 : List.replicate (m + 1) 'u' = List.replicate (n + 1) 'u' := congrArg String.data h
  have h3 := congrArg List.length h2
  simpa using h3

theorem findWallet_mem {rows : List Wallet} {wid : String} {w : Wallet}
    (h : findWallet rows wid = some w) : w ∈ rows := by
  induction rows with
  | nil => simp [findWallet] at h
  | cons r rs ih =>
    by_cases hr : r.id = wid
    · simp only [findWallet, if_pos hr] at h
      exact Option.some.inj h ▸ List.mem_cons_self r rs
    · simp only [findWallet, if_neg hr] at h
      exact List.mem_cons_of_mem r (ih h)

theorem findWallet_id {rows : List Wallet} {wid : String} {w : Wallet}
    (h : findWallet rows wid = some w) : w.id = wid := by
  induction rows with
  | nil => simp [findWallet] at h
  | cons r rs ih =>
    by_cases hr : r.id = wid
    · simp only [findWallet, if_pos hr] at h
      obtain rfl : r = w := Option.some.inj h
      exact hr
    · simp only [findWallet, if_neg hr] at h
      exact ih h

theorem rowsAffected_pos {rows : List Wallet} {wid : String} {w : Wallet}
    (h : findWallet rows wid = some w) :
    rowsAffected rows wid w.version ≠ 0 := by
  have hmem : w ∈ rows := findWallet_mem h
  have hid : w.id = wid := findWallet_id h
  have hpos : 0 < rows.countP (fun r => decide (r.id = wid ∧ r.version = w.version)) :=
    List.countP_pos_iff.mpr ⟨w, hmem, by simp [hid]⟩
  unfold rowsAffected
  omega

theorem findWallet_updateWalletRow {rows : List Wallet} {wid : String} {w : Wallet}
    (bal : Rat) (ver : Int) (h : findWallet rows wid = some w) :
    findWallet (updateWalletRow rows bal ver wid w.version) wid
      = some { w with balance := bal, version := ver } := by
  induction rows with
  | nil => simp [findWallet] at h
  | cons r rs ih =>
    by_cases hr : r.id = wid
    · simp only [findWallet, if_pos hr] at h
      obtain rfl : r = w := Option.some.inj h
      simp [updateWalletRow, findWallet, hr]
    · simp only [findWallet, if_neg hr] at h
      have htail := ih h
      simp only [updateWalletRow, List.map_cons] at htail ⊢
      simp [findWallet, hr, htail]

theorem findWallet_transferUpdateRow_self {rows : List Wallet} {wid : String} {w : Wallet}
    (bal : Rat) (h : findWallet rows wid = some w) :
    findWallet (transferUpdateRow rows bal wid) wid
      = some { w with balance := bal, version := w.version + 1 } := by
  induction rows with
  | nil => simp [findWallet] at h
  | cons r rs ih =>
    by_cases hr : r.id = wid
    · simp only [findWallet, if_pos hr] at h
      obtain rfl : r = w := Option.some.inj h
      simp [transferUpdateRow, findWallet, hr]
    · simp only [findWallet, if_neg hr] at h
      have htail := ih h
      simp only [transferUpdateRow, List.map_cons] at htail ⊢
      simp [findWallet, hr, htail]

theorem findWallet_transferUpdateRow_other {rows : List Wallet} {wid wid' : String}
    (bal : Rat) (hne : wid ≠ wid') :
    findWallet (transferUpdateRow rows bal wid') wid = findWallet rows wid := by
  induction rows with
  | nil => simp [findWallet, transferUpdateRow]
  | cons r rs ih =>
    simp only [transferUpdateRow, List.map_cons] at ih ⊢
    by_cases hr' : r.id = wid'
    · have hr : ¬ r.id = wid := by
        rw [hr']
        exact hne.symm
      rw [if_pos hr']
      simp only [findWallet]
      rw [if_neg hr, if_neg hr]
      exact ih
    · rw [if_neg hr']
      simp only [findWallet]
      by_cases hr : r.id = wid
      · rw [if_pos hr, if_pos hr]
      · rw [if_neg hr, if_neg hr]
        exact ih

theorem lockOrderIds_of_lt {a b : String} (h : a < b) : lockOrderIds a b = (a, b) := by
  unfold lockOrderIds
  rw [if_pos h]

theorem lockOrderIds_of_gt {a b : String} (h : b < a) : lockOrderIds a b = (b, a) := by
  unfold lockOrderIds
  rw [if_neg (asymm h)]

/-- Reduction of `transfer` past validation, lock acquisition and sender
re-identification, for distinct existing wallets. -/
theorem transfer_eq_transferLocked {s : WalletStore} {f t : String} {a : Rat}
    {wf wt : Wallet}
    (ha : ¬ a ≤ 0) (hne : f ≠ t)
    (hf : findWallet s.wallets f = some wf)
    (ht : findWallet s.wallets t = some wt) :
    transfer s f t a = transferLocked s wf wt a := by
  have hfid : wf.id = f := findWallet_id hf
  have htid : wt.id = t := findWallet_id ht
  unfold transfer
  rw [if_neg ha, if_neg hne]
  rcases lt_or_gt_of_ne hne with hlt | hgt
  · rw [lockOrderIds_of_lt hlt]
    simp only [hf, ht]
    simp [hfid]
  · rw [lockOrderIds_of_gt hgt]
    simp only [hf, ht]
    have : ¬ wt.id = f := by
      rw [htid]
      exact hne.symm
    simp [this]

/-- Reduction of `fund_wallet` on a positive amount and an existing wallet:
the optimistic check passes (nothing intervened between the read and the
conditional write in this sequential semantics), the wallet row is updated,
one `Fund` ledger row is appended, and the re-read row is returned. -/
theorem fund_wallet_eq {s : WalletStore} {wid : String} {a : Rat} {w : Wallet}
    (ha : 0 < a) (hw : findWallet s.wallets wid = some w) :
    fund_wallet s wid a =
      ({ wallets := updateWalletRow s.wallets (w.balance + a) (w.version + 1) wid w.version,
         transactions := s.transactions ++
           [{ id := freshId s.nextId, wallet_id := wid, amount := a,
              transaction_type := .Fund, status := .Completed, reference_id := none }],
         nextId := s.nextId + 1 },
       .ok ({ w with balance := w.balance + a, version := w.version + 1 },
            { id := freshId s.nextId, wallet_id := wid, amount := a,
              transaction_type := .Fund, status := .Completed, reference_id := none })) := by
  have hup := findWallet_updateWalletRow (w.balance + a) (w.version + 1) hw
  unfold fund_wallet
  rw [if_neg (not_le.mpr ha)]
  simp only [hw]
  rw [if_neg (rowsAffected_pos hw)]
  simp only [hup]

/-! ## Claim theorems -/

/-- Claim C7: `transfer(from_id, to_id, a)` with `a ≤ 0` or `from_id = to_id`
fails with `InvalidAmount` regardless of balances, and does so before any
state change: the returned store is the caller's store untouched, so no
balance, version or ledger entry is modified. -/
theorem claim_C7_transfer_validation (s : WalletStore)
    (from_wallet_id to_wallet_id : String) (amount : Rat)
    (h : amount ≤ 0 ∨ from_wallet_id = to_wallet_id) :
    (transfer s from_wallet_id to_wallet_id amount).1 = s ∧
    ∃ msg, (transfer s from_wallet_id to_wallet_id amount).2
      = .error (.InvalidAmount msg) := by
  unfold transfer
  by_cases ha : amount ≤ 0
  · rw [if_pos ha]
    exact ⟨rfl, _, rfl⟩
  · rcases h with h | h
    · exact absurd h ha
    · rw [if_neg ha, if_pos h]
      exact ⟨rfl, _, rfl⟩

/-- Witness for C7: a self-transfer of amount 0 on the empty store. -/
theorem claim_C7_witness :
    ((0 : Rat) ≤ 0 ∨ ("w1" : String) = "w1") ∧
    ((transfer emptyWalletStore "w1" "w1" 0).1 = emptyWalletStore ∧
     ∃ msg, (transfer emptyWalletStore "w1" "w1" 0).2
       = .error (.InvalidAmount msg)) :=
  ⟨Or.inl le_rfl, claim_C7_transfer_validation emptyWalletStore "w1" "w1" 0 (Or.inl le_rfl)⟩

/-- Claim C5: `transfer(A, B, a)` with `a > 0`, `A ≠ B`, both wallets existing
and the sender's balance (as read under the lock) below `a` fails with
`InsufficientBalance` whose `required` is `a` and whose `available` is the
sender's balance, and the returned store is the caller's store untouched: no
balance, version or ledger entry changes. -/
theorem claim_C5_transfer_insufficient_balance
    (s : WalletStore) (from_wallet_id to_wallet_id : String) (amount : Rat)
    (wf wt : Wallet)
    (ha : 0 < amount) (hne : from_wallet_id ≠ to_wallet_id)
    (hf : findWallet s.wallets from_wallet_id = some wf)
    (ht : findWallet s.wallets to_wallet_id = some wt)
    (hlt : wf.balance < amount) :
    (transfer s from_wallet_id to_wallet_id amount).1 = s ∧
    (transfer s from_wallet_id to_wallet_id amount).2
      = .error (.InsufficientBalance amount wf.balance) := by
  rw [transfer_eq_transferLocked (not_le.mpr ha) hne hf ht]
  unfold transferLocked
  rw [if_pos hlt]
  exact ⟨rfl, rfl⟩

/-- Witness for C5: transferring 9 out of wallet `wa` holding 5. -/
theorem claim_C5_witness :
    (0 : Rat) < 9 ∧ ("wa" : String) ≠ "wb" ∧
    findWallet sampleStore.wallets "wa" = some ⟨"wa", "alice", 5, 0⟩ ∧
    findWallet sampleStore.wallets "wb" = some ⟨"wb", "bob", 3, 2⟩ ∧
    (5 : Rat) < 9 ∧
    ((transfer sampleStore "wa" "wb" 9).1 = sampleStore ∧
     (transfer sampleStore "wa" "wb" 9).2 = .error (.InsufficientBalance 9 5)) := by
  have h1 : (0 : Rat) < 9 := by norm_num
  have h2 : ("wa" : String) ≠ "wb" := by decide
  have h3 : findWallet sampleStore.wallets "wa" = some ⟨"wa", "alice", 5, 0⟩ := rfl
  have h4 : findWallet sampleStore.wallets "wb" = some ⟨"wb", "bob", 3, 2⟩ := rfl
  have h5 : (5 : Rat) < 9 := by norm_num
  exact ⟨h1, h2, h3, h4, h5,
    claim_C5_transfer_insufficient_balance sampleStore "wa" "wb" 9 _ _ h1 h2 h3 h4 h5⟩

/-- Claim C2: for every `a > 0` and existing wallet `w`, `fund(w, a)` succeeds,
increases the wallet's balance by exactly `a` and its version by exactly 1
(both in the returned wallet and in the stored row), and appends exactly one
ledger entry of kind `Fund` with amount `a` and no reference id. -/
theorem claim_C2_fund_wallet (s : WalletStore) (wid : String) (a : Rat) (w : Wallet)
    (ha : 0 < a) (hw : findWallet s.wallets wid = some w) :
    (fund_wallet s wid a).2
      = .ok ({ w with balance := w.balance + a, version := w.version + 1 },
             { id := freshId s.nextId, wallet_id := wid, amount := a,
               transaction_type := .Fund, status := .Completed, reference_id := none }) ∧
    findWallet (fund_wallet s wid a).1.wallets wid
      = some { w with balance := w.balance + a, version := w.version + 1 } ∧
    (fund_wallet s wid a).1.transactions
      = s.transactions ++
        [{ id := freshId s.nextId, wallet_id := wid, amount := a,
           transaction_type := .Fund, status := .Completed, reference_id := none }] := by
  rw [fund_wallet_eq ha hw]
  exact ⟨rfl, findWallet_updateWalletRow (w.balance + a) (w.version + 1) hw, rfl⟩

/-- Witness for C2: funding wallet `wa` (balance 5, version 0) with 2. -/
theorem claim_C2_witness :
    (0 : Rat) < 2 ∧
    findWallet sampleStore.wallets "wa" = some ⟨"wa", "alice", 5, 0⟩ ∧
    (fund_wallet sampleStore "wa" 2).2
      = .ok (⟨"wa", "alice", 7, 1⟩,
             ⟨freshId 7, "wa", 2, TransactionType.Fund, TransactionStatus.Completed, none⟩) := by
  have h1 : (0 : Rat) < 2 := by norm_num
  have h2 : findWallet sampleStore.wallets "wa" = some ⟨"wa", "alice", 5, 0⟩ := rfl
  refine ⟨h1, h2, ?_⟩
  have h3 := (claim_C2_fund_wallet sampleStore "wa" 2 ⟨"wa", "alice", 5, 0⟩ h1 h2).1
  rw [h3]
  norm_num [sampleStore]

/-- `transfer` either leaves the caller's store untouched (all error branches
drop the transaction without commit) or commits and returns the pair. -/
theorem transfer_ok_or_unchanged (s : WalletStore) (f t : String) (a : Rat) :
    (transfer s f t a).1 = s ∨ ∃ v, (transfer s f t a).2 = .ok v := by
  unfold transfer
  by_cases ha : a ≤ 0
  · rw [if_pos ha]
    exact Or.inl rfl
  · rw [if_neg ha]
    by_cases heq : f = t
    · rw [if_pos heq]
      exact Or.inl rfl
    · rw [if_neg heq]
      dsimp only
      cases findWallet s.wallets (lockOrderIds f t).1 with
      | none => exact Or.inl rfl
      | some fw =>
        cases findWallet s.wallets (lockOrderIds f t).2 with
        | none => exact Or.inl rfl
        | some sw =>
          dsimp only
          unfold transferLocked
          by_cases hlt : (if fw.id = f then (fw, sw) else (sw, fw)).1.balance < a
          · rw [if_pos hlt]
            exact Or.inl rfl
          · rw [if_neg hlt]
            exact Or.inr ⟨_, rfl⟩

/-- Claim C1: `transfer(A, B, a)` with `a > 0`, `A ≠ B`, both wallets existing
and `A.balance ≥ a` succeeds: A's stored balance decreases by exactly `a`, B's
increases by exactly `a` (each with a version increment), exactly one
`TransferOut` row and one `TransferIn` row are appended, sharing one reference
id freshly drawn from the id source (never used by any earlier ledger row) and
each recording amount `a`; the single returned committed store carries all of
these effects at once (an error instead returns the caller's store with none
of them). -/
theorem claim_C1_transfer_success
    (s : WalletStore) (from_wallet_id to_wallet_id : String) (amount : Rat)
    (wf wt : Wallet)
    (ha : 0 < amount) (hne : from_wallet_id ≠ to_wallet_id)
    (hf : findWallet s.wallets from_wallet_id = some wf)
    (ht : findWallet s.wallets to_wallet_id = some wt)
    (hbal : amount ≤ wf.balance)
    (hbound : RefIdsBounded s) :
    (transfer s from_wallet_id to_wallet_id amount).2
      = .ok ({ id := freshId (s.nextId + 1), wallet_id := wf.id, amount := amount,
               transaction_type := .TransferOut, status := .Completed,
               reference_id := some (freshId s.nextId) },
             { id := freshId (s.nextId + 2), wallet_id := wt.id, amount := amount,
               transaction_type := .TransferIn, status := .Completed,
               reference_id := some (freshId s.nextId) }) ∧
    findWallet (transfer s from_wallet_id to_wallet_id amount).1.wallets from_wallet_id
      = some { wf with balance := wf.balance - amount, version := wf.version + 1 } ∧
    findWallet (transfer s from_wallet_id to_wallet_id amount).1.wallets to_wallet_id
      = some { wt with balance := wt.balance + amount, version := wt.version + 1 } ∧
    (transfer s from_wallet_id to_wallet_id amount).1.transactions
      = s.transactions ++
        [{ id := freshId (s.nextId + 1), wallet_id := wf.id, amount := amount,
           transaction_type := .TransferOut, status := .Completed,
           reference_id := some (freshId s.nextId) },
         { id := freshId (s.nextId + 2), wallet_id := wt.id, amount := amount,
           transaction_type := .TransferIn, status := .Completed,
           reference_id := some (freshId s.nextId) }] ∧
    ¬ RefIdUsed s (freshId s.nextId) ∧
    ∀ (s2 : WalletStore) (f2 t2 : String) (a2 : Rat) (e : WalletError),
      (transfer s2 f2 t2 a2).2 = .error e → (transfer s2 f2 t2 a2).1 = s2 := by
  have hfid : wf.id = from_wallet_id := findWallet_id hf
  have htid : wt.id = to_wallet_id := findWallet_id ht
  rw [transfer_eq_transferLocked (not_le.mpr ha) hne hf ht]
  unfold transferLocked
  rw [if_neg (not_lt.mpr hbal)]
  refine ⟨rfl, ?_, ?_, rfl, ?_, ?_⟩
  · show findWallet
      (transferUpdateRow (transferUpdateRow s.wallets (wf.balance - amount) wf.id)
        (wt.balance + amount) wt.id) from_wallet_id
      = some { wf with balance := wf.balance - amount, version := wf.version + 1 }
    rw [htid, findWallet_transferUpdateRow_other (wt.balance + amount) hne, hfid,
      findWallet_transferUpdateRow_self (wf.balance - amount) hf, hfid]
  · show findWallet
      (transferUpdateRow (transferUpdateRow s.wallets (wf.balance - amount) wf.id)
        (wt.balance + amount) wt.id) to_wallet_id
      = some { wt with balance := wt.balance + amount, version := wt.version + 1 }
    have ht1 : findWallet (transferUpdateRow s.wallets (wf.balance - amount) wf.id)
        to_wallet_id = some wt := by
      rw [hfid, findWallet_transferUpdateRow_other (wf.balance - amount) hne.symm, ht]
    rw [htid, findWallet_transferUpdateRow_self (wt.balance + amount) ht1, htid]
  · rintro ⟨t, htmem, htref⟩
    obtain ⟨k, hk, hkeq⟩ := hbound t htmem _ htref
    have := freshId_inj hkeq
    omega
  · intro s2 f2 t2 a2 e he
    rcases transfer_ok_or_unchanged s2 f2 t2 a2 with h | ⟨v, hv⟩
    · exact h
    · rw [hv] at he
      simp at he

/-- Witness for C1: transferring 2 from wallet `wa` (balance 5) to `wb`. -/
theorem claim_C1_witness :
    (0 : Rat) < 2 ∧ ("wa" : String) ≠ "wb" ∧
    findWallet sampleStore.wallets "wa" = some ⟨"wa", "alice", 5, 0⟩ ∧
    findWallet sampleStore.wallets "wb" = some ⟨"wb", "bob", 3, 2⟩ ∧
    (2 : Rat) ≤ 5 ∧ RefIdsBounded sampleStore ∧
    ((transfer sampleStore "wa" "wb" 2).2
       = .ok (⟨freshId 8, "wa", 2, TransactionType.TransferOut,
               TransactionStatus.Completed, some (freshId 7)⟩,
              ⟨freshId 9, "wb", 2, TransactionType.TransferIn,
               TransactionStatus.Completed, some (freshId 7)⟩) ∧
     ¬ RefIdUsed sampleStore (freshId 7)) := by
  have h1 : (0 : Rat) < 2 := by norm_num
  have h2 : ("wa" : String) ≠ "wb" := by decide
  have h3 : findWallet sampleStore.wallets "wa" = some ⟨"wa", "alice", 5, 0⟩ := rfl
  have h4 : findWallet sampleStore.wallets "wb" = some ⟨"wb", "bob", 3, 2⟩ := rfl
  have h5 : (2 : Rat) ≤ 5 := by norm_num
  have h6 : RefIdsBounded sampleStore := by
    intro t htmem
    simp [sampleStore] at htmem
  have h7 := claim_C1_transfer_success sampleStore "wa" "wb" 2 ⟨"wa", "alice", 5, 0⟩
    ⟨"wb", "bob", 3, 2⟩ h1 h2 h3 h4 h5 h6
  exact ⟨h1, h2, h3, h4, h5, h6, h7.1, h7.2.2.2.2.1⟩

/-- Claim C6: `transfer` acquires the two rows in ascending identity order
independent of sender/receiver role: the lock pair computed by `lockOrderIds`
(`repository.rs` lines 199-203, consumed by the two `lock_wallet_in_tx` calls
first component first) is the same for `transfer(A,B,·)` and `transfer(B,A,·)`,
namely `(min A B, max A B)`, strictly ascending. -/
theorem claim_C6_lock_order (a b : String) (h : a ≠ b) :
    lockOrderIds a b = lockOrderIds b a ∧
    lockOrderIds a b = (min a b, max a b) ∧
    (lockOrderIds a b).1 < (lockOrderIds a b).2 := by
  rcases lt_or_gt_of_ne h with hlt | hgt
  · rw [lockOrderIds_of_lt hlt, lockOrderIds_of_gt hlt]
    exact ⟨rfl, by rw [min_eq_left hlt.le, max_eq_right hlt.le], hlt⟩
  · rw [lockOrderIds_of_gt hgt, lockOrderIds_of_lt hgt]
    exact ⟨rfl, by rw [min_eq_right hgt.le, max_eq_left hgt.le], hgt⟩

/-- Witness for C6 at the concrete wallet pair `"wa"`, `"wb"`. -/
theorem claim_C6_witness :
    ("wa" : String) ≠ "wb" ∧
    (lockOrderIds "wa" "wb" = lockOrderIds "wb" "wa" ∧
     lockOrderIds "wa" "wb" = (min "wa" "wb", max "wa" "wb") ∧
     (lockOrderIds "wa" "wb").1 < (lockOrderIds "wa" "wb").2) :=
  ⟨by decide, claim_C6_lock_order "wa" "wb" (by decide)⟩

/-- The post-lock stage of a transfer preserves non-negative balances when the
debited and credited rows are rows of the store and the amount is
non-negative. -/
theorem transferLocked_nonneg {s : WalletStore} (hs : NonNegBalances s)
    {fw tw : Wallet} (_hfw : fw ∈ s.wallets) (htw : tw ∈ s.wallets)
    {amount : Rat} (ha : 0 ≤ amount) :
    NonNegBalances (transferLocked s fw tw amount).1 := by
  unfold transferLocked
  by_cases hlt : fw.balance < amount
  · rw [if_pos hlt]
    exact hs
  · rw [if_neg hlt]
    intro w' hw'
    simp only [transferUpdateRow, List.mem_map] at hw'
    obtain ⟨x, ⟨r, hr, rfl⟩, rfl⟩ := hw'
    have hdebit : 0 ≤ fw.balance - amount := by
      have := not_lt.mp hlt
      linarith
    have hcredit : 0 ≤ tw.balance + amount := by
      have := hs tw htw
      linarith
    have hrb : 0 ≤ r.balance := hs r hr
    split_ifs with h1 h2 h3
    · dsimp only
      exact hcredit
    · dsimp only
      exact hdebit
    · dsimp only
      exact hcredit
    · exact hrb

/-- Every single operation — successful or failed — preserves non-negative
balances. -/
theorem applyOp_nonneg {s : WalletStore} (hs : NonNegBalances s) (op : Op) :
    NonNegBalances (applyOp s op) := by
  cases op with
  | create user_id =>
    intro w hw
    simp only [applyOp, create_wallet, List.mem_append, List.mem_singleton] at hw
    rcases hw with hw | rfl
    · exact hs w hw
    · exact le_refl 0
  | fund wallet_id amount =>
    simp only [applyOp]
    unfold fund_wallet
    by_cases ha : amount ≤ 0
    · rw [if_pos ha]
      exact hs
    · rw [if_neg ha]
      cases hfind : findWallet s.wallets wallet_id with
      | none => exact hs
      | some w =>
        simp only []
        by_cases haff : rowsAffected s.wallets wallet_id w.version = 0
        · rw [if_pos haff]
          exact hs
        · rw [if_neg haff]
          have hwb : 0 ≤ w.balance := hs w (findWallet_mem hfind)
          have hnn : NonNegBalances
              { wallets := updateWalletRow s.wallets (w.balance + amount)
                  (w.version + 1) wallet_id w.version,
                transactions := s.transactions ++
                  [{ id := freshId s.nextId, wallet_id := wallet_id, amount := amount,
                     transaction_type := .Fund, status := .Completed, reference_id := none }],
                nextId := s.nextId + 1 } := by
            intro w' hw'
            simp only [updateWalletRow, List.mem_map] at hw'
            obtain ⟨r, hr, rfl⟩ := hw'
            by_cases hc : r.id = wallet_id ∧ r.version = w.version
            · rw [if_pos hc]
              have hpos := not_le.mp ha
              dsimp only
              linarith
            · rw [if_neg hc]
              exact hs r hr
          cases hfind2 : findWallet (updateWalletRow s.wallets (w.balance + amount)
              (w.version + 1) wallet_id w.version) wallet_id with
          | none => simpa [hfind2] using hnn
          | some u => simpa [hfind2] using hnn
  | transfer from_wallet_id to_wallet_id amount =>
    simp only [applyOp]
    unfold transfer
    by_cases ha : amount ≤ 0
    · rw [if_pos ha]
      exact hs
    · rw [if_neg ha]
      by_cases heq : from_wallet_id = to_wallet_id
      · rw [if_pos heq]
        exact hs
      · rw [if_neg heq]
        dsimp only
        cases hfind1 : findWallet s.wallets (lockOrderIds from_wallet_id to_wallet_id).1 with
        | none => exact hs
        | some first_wallet =>
          cases hfind2 : findWallet s.wallets (lockOrderIds from_wallet_id to_wallet_id).2 with
          | none => exact hs
          | some second_wallet =>
            have hm1 : first_wallet ∈ s.wallets := findWallet_mem hfind1
            have hm2 : second_wallet ∈ s.wallets := findWallet_mem hfind2
            have ha' : 0 ≤ amount := (not_le.mp ha).le
            dsimp only
            by_cases hpair : first_wallet.id = from_wallet_id
            · rw [if_pos hpair]
              exact transferLocked_nonneg hs hm1 hm2 ha'
            · rw [if_neg hpair]
              exact transferLocked_nonneg hs hm2 hm1 ha'

/-- Claim C3: in every state reachable from the initial empty store by any
sequence of `create_wallet`, `fund` and `transfer` operations (successful or
failed), every wallet's balance is non-negative: creation starts at 0, `fund`
only adds a positive amount, and `transfer` debits only after checking the
sender's locked balance covers the amount. -/
theorem claim_C3_reachable_balances_nonneg (ops : List Op) :
    ∀ w ∈ (runOps ops).wallets, 0 ≤ w.balance := by
  suffices h : ∀ s, NonNegBalances s → NonNegBalances (ops.foldl applyOp s) by
    exact h emptyWalletStore (by intro w hw; simp [emptyWalletStore] at hw)
  induction ops with
  | nil => exact fun s hs => hs
  | cons op rest ih => exact fun s hs => ih _ (applyOp_nonneg hs op)

/-- Witness for C3: the wallet created by one `create_wallet` is reachable and
its balance is non-negative. -/
theorem claim_C3_witness :
    (⟨freshId 0, "alice", 0, 0⟩ : Wallet) ∈ (runOps [Op.create "alice"]).wallets ∧
    (0 : Rat) ≤ (⟨freshId 0, "alice", 0, 0⟩ : Wallet).balance := by
  have hmem : (⟨freshId 0, "alice", 0, 0⟩ : Wallet)
      ∈ (runOps [Op.create "alice"]).wallets := by
    simp [runOps, applyOp, create_wallet, emptyWalletStore]
  exact ⟨hmem, claim_C3_reachable_balances_nonneg [Op.create "alice"] _ hmem⟩

/-- Claim C10: a successful `fund(w, a)` publishes exactly one `WalletFunded`
event carrying amount `a`, `transaction_id` equal to the id of the `Fund`
ledger entry created by that call, and `new_balance` equal to the wallet's
balance re-read after the commit — in this sequential semantics the pre-fund
balance plus `a`; and when `fund_wallet` fails, no event is published. -/
theorem claim_C10_fund_event (s : WalletStore) (wid : String) (a : Rat) (w : Wallet)
    (ha : 0 < a) (hw : findWallet s.wallets wid = some w) :
    ((fund_wallet_handler s wid a).2.2
        = [WalletEvent.WalletFunded wid w.user_id a (w.balance + a) (freshId s.nextId)] ∧
      (fund_wallet s wid a).2
        = .ok ({ w with balance := w.balance + a, version := w.version + 1 },
               { id := freshId s.nextId, wallet_id := wid, amount := a,
                 transaction_type := .Fund, status := .Completed, reference_id := none })) ∧
    ∀ (s2 : WalletStore) (wid2 : String) (a2 : Rat) (e : WalletError),
      (fund_wallet s2 wid2 a2).2 = .error e →
      (fund_wallet_handler s2 wid2 a2).2.2 = [] := by
  constructor
  · have hfid : w.id = wid := findWallet_id hw
    unfold fund_wallet_handler
    rw [fund_wallet_eq ha hw]
    refine ⟨?_, rfl⟩
    unfold publish_wallet_funded
    dsimp only
    rw [hfid]
  · intro s2 wid2 a2 e he
    unfold fund_wallet_handler
    cases hres : fund_wallet s2 wid2 a2 with
    | mk s' exc =>
      rw [hres] at he
      cases exc with
      | ok v => simp at he
      | error e2 => rfl

/-- Witness for C10: funding wallet `wa` with 2 publishes the matching event;
funding a missing wallet fails and publishes nothing. -/
theorem claim_C10_witness :
    (0 : Rat) < 2 ∧
    findWallet sampleStore.wallets "wa" = some ⟨"wa", "alice", 5, 0⟩ ∧
    (fund_wallet_handler sampleStore "wa" 2).2.2
      = [WalletEvent.WalletFunded "wa" "alice" 2 7 (freshId 7)] ∧
    (fund_wallet emptyWalletStore "w1" 1).2 = .error (.WalletNotFound "w1") ∧
    (fund_wallet_handler emptyWalletStore "w1" 1).2.2 = [] := by
  have h1 : (0 : Rat) < 2 := by norm_num
  have h2 : findWallet sampleStore.wallets "wa" = some ⟨"wa", "alice", 5, 0⟩ := rfl
  have hmain := claim_C10_fund_event sampleStore "wa" 2 ⟨"wa", "alice", 5, 0⟩ h1 h2
  have herr : (fund_wallet emptyWalletStore "w1" 1).2 = .error (.WalletNotFound "w1") := by
    unfold fund_wallet
    rw [if_neg (by norm_num)]
    rfl
  refine ⟨h1, h2, ?_, herr, hmain.2 _ _ _ _ herr⟩
  rw [hmain.1.1]
  norm_num [sampleStore]

/-- `store_event` when the event carries an idempotency key absent from the
store: one row is inserted. -/
theorem store_event_keyed_absent {s : HistoryStore} {e : WalletEvent} {t : String}
    (he : e.transaction_id = some t) (hab : txnIdExists s.rows t = false) :
    store_event s e =
      ({ rows := s.rows ++
           [{ id := freshId s.nextId, wallet_id := e.wallet_id, user_id := e.user_id,
              amount := e.amount, event_type := e.event_type,
              transaction_id := e.transaction_id }],
         nextId := s.nextId + 1 },
       some { id := freshId s.nextId, wallet_id := e.wallet_id, user_id := e.user_id,
              amount := e.amount, event_type := e.event_type,
              transaction_id := e.transaction_id }) := by
  unfold store_event
  rw [he]
  dsimp only
  rw [hab]
  rfl

/-- `store_event` when the event carries an idempotency key already present:
skip, store unchanged. -/
theorem store_event_keyed_present {s : HistoryStore} {e : WalletEvent} {t : String}
    (he : e.transaction_id = some t) (hp : txnIdExists s.rows t = true) :
    store_event s e = (s, none) := by
  unfold store_event
  rw [he]
  dsimp only
  rw [hp]
  rfl

/-- `store_transfer_events` on a `TransferCompleted` whose reference id is
absent: the `TRANSFER_OUT` and `TRANSFER_IN` rows are inserted. -/
theorem store_transfer_events_absent {s : HistoryStore}
    {fw fu tw tu : String} {a : Rat} {ref : String}
    (hab : txnIdExists s.rows ref = false) :
    store_transfer_events s (.TransferCompleted fw fu tw tu a ref) =
      ({ rows := s.rows ++
           [{ id := freshId s.nextId, wallet_id := fw, user_id := fu, amount := a,
              event_type := "TRANSFER_OUT", transaction_id := some ref },
            { id := freshId (s.nextId + 1), wallet_id := tw, user_id := tu, amount := a,
              event_type := "TRANSFER_IN", transaction_id := some ref }],
         nextId := s.nextId + 2 },
       .ok [{ id := freshId s.nextId, wallet_id := fw, user_id := fu, amount := a,
              event_type := "TRANSFER_OUT", transaction_id := some ref },
            { id := freshId (s.nextId + 1), wallet_id := tw, user_id := tu, amount := a,
              event_type := "TRANSFER_IN", transaction_id := some ref }]) := by
  unfold store_transfer_events
  dsimp only
  rw [hab]
  rfl

/-- `store_transfer_events` on a `TransferCompleted` whose reference id is
already present: skip, store unchanged. -/
theorem store_transfer_events_present {s : HistoryStore}
    {fw fu tw tu : String} {a : Rat} {ref : String}
    (hp : txnIdExists s.rows ref = true) :
    store_transfer_events s (.TransferCompleted fw fu tw tu a ref) = (s, .ok []) := by
  unfold store_transfer_events
  dsimp only
  rw [hp]
  rfl

/-- An idempotency key counted zero times is absent. -/
theorem txnIdExists_false_of_count {rows : List TransactionEvent} {t : String}
    (h : rows.countP (fun r => decide (r.transaction_id = some t)) = 0) :
    txnIdExists rows t = false := by
  unfold txnIdExists
  rw [List.any_eq_false]
  intro r hr
  have := List.countP_eq_zero.mp h r hr
  simpa using this

/-- Claim C4: projection is idempotent for keyed events under sequential
redelivery.  Processing the same `WalletFunded` event twice (same transaction
id, not yet present) leaves exactly one history row for that transaction id;
processing the same `TransferCompleted` event twice (same reference id, not
yet present) leaves exactly two rows for that reference id — one
`TRANSFER_OUT`, one `TRANSFER_IN` — and grows the store by exactly two rows,
never four. -/
theorem claim_C4_projection_idempotent :
    (∀ (s : HistoryStore) (wid uid : String) (a nb : Rat) (tid : String),
      countTxnId s tid = 0 →
      countTxnId (store_event (store_event s (.WalletFunded wid uid a nb tid)).1
        (.WalletFunded wid uid a nb tid)).1 tid = 1) ∧
    (∀ (s : HistoryStore) (fw fu tw tu : String) (a : Rat) (ref : String),
      countTxnId s ref = 0 →
      (store_transfer_events (store_transfer_events s
          (.TransferCompleted fw fu tw tu a ref)).1
          (.TransferCompleted fw fu tw tu a ref)).1.rows.length = s.rows.length + 2 ∧
      countTxnId (store_transfer_events (store_transfer_events s
          (.TransferCompleted fw fu tw tu a ref)).1
          (.TransferCompleted fw fu tw tu a ref)).1 ref = 2 ∧
      countTypeTxnId (store_transfer_events (store_transfer_events s
          (.TransferCompleted fw fu tw tu a ref)).1
          (.TransferCompleted fw fu tw tu a ref)).1 "TRANSFER_OUT" ref = 1 ∧
      countTypeTxnId (store_transfer_events (store_transfer_events s
          (.TransferCompleted fw fu tw tu a ref)).1
          (.TransferCompleted fw fu tw tu a ref)).1 "TRANSFER_IN" ref = 1) := by
  constructor
  · intro s wid uid a nb tid h0
    unfold countTxnId at h0
    have hab : txnIdExists s.rows tid = false := txnIdExists_false_of_count h0
    have he : (WalletEvent.WalletFunded wid uid a nb tid).transaction_id = some tid := rfl
    rw [store_event_keyed_absent he hab]
    dsimp only [WalletEvent.wallet_id, WalletEvent.user_id, WalletEvent.amount,
      WalletEvent.event_type, WalletEvent.transaction_id]
    have hp : txnIdExists (s.rows ++
        [{ id := freshId s.nextId, wallet_id := wid, user_id := uid, amount := a,
           event_type := "WALLET_FUNDED", transaction_id := some tid }]) tid = true := by
      simp [txnIdExists]
    rw [store_event_keyed_present he hp]
    unfold countTxnId
    dsimp only
    rw [List.countP_append, h0]
    simp
  · intro s fw fu tw tu a ref h0
    unfold countTxnId at h0
    have hab : txnIdExists s.rows ref = false := txnIdExists_false_of_count h0
    rw [store_transfer_events_absent hab]
    dsimp only
    have hp : txnIdExists (s.rows ++
        [{ id := freshId s.nextId, wallet_id := fw, user_id := fu, amount := a,
           event_type := "TRANSFER_OUT", transaction_id := some ref },
         { id := freshId (s.nextId + 1), wallet_id := tw, user_id := tu, amount := a,
           event_type := "TRANSFER_IN", transaction_id := some ref }]) ref = true := by
      simp [txnIdExists]
    rw [store_transfer_events_present hp]
    have h0' := List.countP_eq_zero.mp h0
    have hz : ∀ ty : String, s.rows.countP
        (fun r => decide (r.event_type = ty ∧ r.transaction_id = some ref)) = 0 := by
      intro ty
      rw [List.countP_eq_zero]
      intro r hr
      have hne := h0' r hr
      simp only [decide_eq_true_eq] at hne ⊢
      intro hcontra
      exact hne hcontra.2
    refine ⟨by simp, ?_, ?_, ?_⟩
    · unfold countTxnId
      dsimp only
      rw [List.countP_append, h0]
      simp
    · unfold countTypeTxnId
      dsimp only
      rw [List.countP_append, hz "TRANSFER_OUT"]
      simp
    · unfold countTypeTxnId
      dsimp only
      rw [List.countP_append, hz "TRANSFER_IN"]
      simp

/-- Witness for C4: redelivering a `WalletFunded` and a `TransferCompleted`
event twice against the empty history store. -/
theorem claim_C4_witness :
    countTxnId emptyHistoryStore "t1" = 0 ∧
    countTxnId (store_event (store_event emptyHistoryStore
        (.WalletFunded "w1" "u1" 5 6 "t1")).1
        (.WalletFunded "w1" "u1" 5 6 "t1")).1 "t1" = 1 ∧
    countTxnId emptyHistoryStore "r1" = 0 ∧
    ((store_transfer_events (store_transfer_events emptyHistoryStore
        (.TransferCompleted "w1" "u1" "w2" "u2" 4 "r1")).1
        (.TransferCompleted "w1" "u1" "w2" "u2" 4 "r1")).1.rows.length
        = emptyHistoryStore.rows.length + 2 ∧
      countTxnId (store_transfer_events (store_transfer_events emptyHistoryStore
        (.TransferCompleted "w1" "u1" "w2" "u2" 4 "r1")).1
        (.TransferCompleted "w1" "u1" "w2" "u2" 4 "r1")).1 "r1" = 2 ∧
      countTypeTxnId (store_transfer_events (store_transfer_events emptyHistoryStore
        (.TransferCompleted "w1" "u1" "w2" "u2" 4 "r1")).1
        (.TransferCompleted "w1" "u1" "w2" "u2" 4 "r1")).1 "TRANSFER_OUT" "r1" = 1 ∧
      countTypeTxnId (store_transfer_events (store_transfer_events emptyHistoryStore
        (.TransferCompleted "w1" "u1" "w2" "u2" 4 "r1")).1
        (.TransferCompleted "w1" "u1" "w2" "u2" 4 "r1")).1 "TRANSFER_IN" "r1" = 1) :=
  ⟨rfl,
   claim_C4_projection_idempotent.1 emptyHistoryStore "w1" "u1" 5 6 "t1" rfl,
   rfl,
   claim_C4_projection_idempotent.2 emptyHistoryStore "w1" "u1" "w2" "u2" 4 "r1" rfl⟩

/-- Claim C8: creation events carry no idempotency key; against the
spec-modelled store (whose uniqueness constraint on the created wallet's
identity rejects a second `WALLET_CREATED` row), the projector inserts one
history row per emission, and processing the same `WalletCreated` event twice
leaves the store in the same state as processing it once — the duplicate
insert is rejected by the constraint. -/
theorem store_event_db_created_insert {s : HistoryStore} {wid uid : String}
    (hc : creationConstraintViolated s.rows
      { id := freshId s.nextId, wallet_id := wid, user_id := uid, amount := 0,
        event_type := "WALLET_CREATED", transaction_id := none } = false) :
    store_event_db s (.WalletCreated wid uid)
      = ({ rows := s.rows ++
             [{ id := freshId s.nextId, wallet_id := wid, user_id := uid, amount := 0,
                event_type := "WALLET_CREATED", transaction_id := none }],
           nextId := s.nextId + 1 },
         .ok (some { id := freshId s.nextId, wallet_id := wid, user_id := uid, amount := 0,
                     event_type := "WALLET_CREATED", transaction_id := none })) := by
  unfold store_event_db
  dsimp only [WalletEvent.transaction_id, WalletEvent.wallet_id, WalletEvent.user_id,
    WalletEvent.amount, WalletEvent.event_type]
  rw [hc]
  rfl

theorem store_event_db_created_reject {s : HistoryStore} {wid uid : String}
    (hc : creationConstraintViolated s.rows
      { id := freshId s.nextId, wallet_id := wid, user_id := uid, amount := 0,
        event_type := "WALLET_CREATED", transaction_id := none } = true) :
    store_event_db s (.WalletCreated wid uid)
      = (s, .error (.DatabaseError "duplicate key value violates unique constraint")) := by
  unfold store_event_db
  dsimp only [WalletEvent.transaction_id, WalletEvent.wallet_id, WalletEvent.user_id,
    WalletEvent.amount, WalletEvent.event_type]
  rw [hc]
  rfl

theorem claim_C8_creation_idempotent_db (s : HistoryStore) (wid uid : String) :
    (creationConstraintViolated s.rows
        { id := freshId s.nextId, wallet_id := wid, user_id := uid, amount := 0,
          event_type := "WALLET_CREATED", transaction_id := none } = false →
      (store_event_db s (.WalletCreated wid uid)).1.rows
        = s.rows ++ [{ id := freshId s.nextId, wallet_id := wid, user_id := uid, amount := 0,
                       event_type := "WALLET_CREATED", transaction_id := none }]) ∧
    (store_event_db (store_event_db s (.WalletCreated wid uid)).1
        (.WalletCreated wid uid)).1
      = (store_event_db s (.WalletCreated wid uid)).1 := by
  cases hc : creationConstraintViolated s.rows
      { id := freshId s.nextId, wallet_id := wid, user_id := uid, amount := 0,
        event_type := "WALLET_CREATED", transaction_id := none } with
  | false =>
    rw [store_event_db_created_insert hc]
    constructor
    · intro _
      rfl
    · dsimp only
      have hc2 : creationConstraintViolated
          (s.rows ++ [{ id := freshId s.nextId, wallet_id := wid, user_id := uid, amount := 0,
                        event_type := "WALLET_CREATED", transaction_id := none }])
          { id := freshId (s.nextId + 1), wallet_id := wid, user_id := uid, amount := 0,
            event_type := "WALLET_CREATED", transaction_id := none } = true := by
        simp [creationConstraintViolated]
      rw [store_event_db_created_reject hc2]
  | true =>
    rw [store_event_db_created_reject hc]
    constructor
    · intro hfalse
      exact absurd hfalse (by decide)
    · dsimp only
      rw [store_event_db_created_reject hc]

/-- Witness for C8: creating wallet `w1` against the empty history store. -/
theorem claim_C8_witness :
    creationConstraintViolated emptyHistoryStore.rows
      { id := freshId 0, wallet_id := "w1", user_id := "u1", amount := 0,
        event_type := "WALLET_CREATED", transaction_id := none } = false ∧
    (store_event_db emptyHistoryStore (.WalletCreated "w1" "u1")).1.rows
      = emptyHistoryStore.rows ++
        [{ id := freshId 0, wallet_id := "w1", user_id := "u1", amount := 0,
           event_type := "WALLET_CREATED", transaction_id := none }] ∧
    (store_event_db (store_event_db emptyHistoryStore (.WalletCreated "w1" "u1")).1
        (.WalletCreated "w1" "u1")).1
      = (store_event_db emptyHistoryStore (.WalletCreated "w1" "u1")).1 := by
  have h := claim_C8_creation_idempotent_db emptyHistoryStore "w1" "u1"
  exact ⟨rfl, h.1 rfl, h.2⟩

/-- Claim C9 (refuted; the code contradicts it): the consumer is configured
with `enable.auto.commit=true` and its receive loop logs a projection failure
and continues, so the consume position — which auto-commit persists as the
committed stream position — advances past a message whose projection failed
with a transient storage error, and the broker does not redeliver it.
Evaluated at the failing input: one `WalletFunded` message whose projection
faults at position 0 leaves the store unchanged (the event is lost) while the
position ends at 1, past the failed message; without the fault the same run
projects the event.  (The second half of the claim — no unbounded internal
retry loop — does hold: the handler never retries at all.) -/
theorem claim_C9_offset_advances_past_failure :
    consumeLoop (fun i => decide (i = 0))
      [.WalletFunded "w1" "u1" 5 5 "t1"] 0 emptyHistoryStore
      = (1, emptyHistoryStore) ∧
    consumeLoop (fun _ => false)
      [.WalletFunded "w1" "u1" 5 5 "t1"] 0 emptyHistoryStore
      = (1, { rows := [{ id := freshId 0, wallet_id := "w1", user_id := "u1", amount := 5,
                         event_type := "WALLET_FUNDED", transaction_id := some "t1" }],
              nextId := 1 }) :=
  ⟨rfl, rfl⟩

end DigitalWallet
